import Mathlib

/-!
# Verification of the `ml_tools` feature-engineering toolkit

A shallow embedding of `ml_tools/feature_generator.py` together with proofs
about its generators (`Hour`, `DateTimeInfo`, `custom_generator`) and
aggregators (`Aggregator`, `SingleAggregator`, `SimpleAggregator`, `Average`).

Tables are the external pandas collaborator; per the repository they are an
opaque two-dimensional labelled table supporting column selection, value
counting, unique, merge on a key, and per-column mean.  We model a table
column-major: an ordered association list from column label to the list of
cell values, matching pandas' dict-of-columns construction.  Cells carry the
dynamic values the repository actually stores: strings, numbers (modelled by
`ℚ`), pandas timestamps and time-of-day objects.
-/

set_option autoImplicit false

namespace MlTools

/-- Time-of-day carried by a pandas `Timestamp.time()` value. -/
structure TimeOfDay where
  hour : Nat
  minute : Nat
  second : Nat
deriving DecidableEq, Repr

/-- Model of a pandas `Timestamp`: the calendar fields the repository reads
(`year`, `month`, `day`, `weekday()` with Monday = 0) plus its time of day.
The calendar arithmetic itself lives in the external library, so the fields
are carried directly. -/
structure Timestamp where
  year : Int
  month : Nat
  day : Nat
  weekday : Nat
  tod : TimeOfDay
deriving DecidableEq, Repr

/-- A dynamic cell value of a table. -/
inductive Value where
  | str (s : String)
  | num (q : ℚ)
  | ts (t : Timestamp)
  | time (t : TimeOfDay)
deriving DecidableEq, Repr

/-- Is the cell a timestamp? -/
def Value.isTs : Value → Bool
  | .ts _ => true
  | _ => false

/-- Is the cell numeric? -/
def Value.isNum : Value → Bool
  | .num _ => true
  | _ => false

/-- Numeric view of a cell. -/
def Value.asNum : Value → Option ℚ
  | .num q => some q
  | _ => none

/-- A labelled table, column-major (pandas `DataFrame` built from a dict of
columns): ordered association list label ↦ column values. -/
structure DataFrame where
  cols : List (String × List Value)
deriving DecidableEq, Repr

/-- The column labels, in order (pandas `df.columns` / `for col in df`). -/
def DataFrame.colNames (df : DataFrame) : List String :=
  df.cols.map Prod.fst

/-- Column selection `df[c]`: `none` models the `KeyError` pandas raises on a
missing label. -/
def DataFrame.col? (df : DataFrame) (c : String) : Option (List Value) :=
  (df.cols.find? (fun p => p.1 = c)).map Prod.snd

/-- Python `dict` assignment `d[k] = v` on an insertion-ordered mapping:
replace in place when the key exists, append otherwise. -/
def dictSet {K V : Type} [DecidableEq K] (d : List (K × V)) (k : K) (v : V) :
    List (K × V) :=
  if d.any (fun p => p.1 = k) then
    d.map (fun p => if p.1 = k then (k, v) else p)
  else
    d ++ [(k, v)]

/-- Python `dict` lookup `d[k]`: `none` models `KeyError`. -/
def dictFind? {K V : Type} [DecidableEq K] (d : List (K × V)) (k : K) :
    Option V :=
  (d.find? (fun p => p.1 = k)).map Prod.snd

/-- Column assignment `df[c] = vals`. -/
def DataFrame.setCol (df : DataFrame) (c : String) (vals : List Value) :
    DataFrame :=
  ⟨dictSet df.cols c vals⟩

/-- `df.drop([c], axis=1)`: remove the labelled column. -/
def DataFrame.dropCol (df : DataFrame) (c : String) : DataFrame :=
  ⟨df.cols.filter (fun p => ¬ p.1 = c)⟩

/-- The distinct values of a series in first-occurrence order
(pandas `Series.unique`). -/
def uniqueFirst {α : Type} [DecidableEq α] : List α → List α
  | [] => []
  | x :: xs => x :: uniqueFirst (xs.filter (fun y => ¬ y = x))
termination_by l => l.length
decreasing_by
  simp_wf
  exact Nat.lt_succ_of_le (List.length_filter_le _ _)

/-- Pandas `Series.value_counts()`: one `(value, frequency)` pair per distinct
value, sorted by descending frequency; ties keep the library's stable
first-occurrence order. -/
def valueCounts (s : List Value) : List (Value × Nat) :=
  ((uniqueFirst s).map (fun v => (v, s.count v))).mergeSort
    (fun a b => b.2 ≤ a.2)

/-! ## Basic facts about `uniqueFirst` and `valueCounts` -/

theorem mem_uniqueFirst {α : Type} [DecidableEq α] (v : α) (s : List α) :
    v ∈ uniqueFirst s ↔ v ∈ s := by
  induction s using uniqueFirst.induct with
  | case1 => simp [uniqueFirst]
  | case2 x xs ih =>
    simp only [uniqueFirst, List.mem_cons, ih, List.mem_filter,
      decide_eq_true_eq]
    constructor
    · rintro (rfl | ⟨h1, _⟩)
      · exact Or.inl rfl
      · exact Or.inr h1
    · rintro (rfl | h1)
      · exact Or.inl rfl
      · by_cases hv : v = x
        · exact Or.inl hv
        · exact Or.inr ⟨h1, hv⟩

theorem nodup_uniqueFirst {α : Type} [DecidableEq α] (s : List α) :
    (uniqueFirst s).Nodup := by
  induction s using uniqueFirst.induct with
  | case1 => simp [uniqueFirst]
  | case2 x xs ih =>
    simp only [uniqueFirst, List.nodup_cons]
    refine ⟨fun hx => ?_, ih⟩
    rw [mem_uniqueFirst] at hx
    simp at hx

theorem count_filter_ne_add_count {α : Type} [DecidableEq α] (x : α)
    (xs : List α) :
    (xs.filter (fun y => ¬ y = x)).length + xs.count x = xs.length := by
  induction xs with
  | nil => simp
  | cons a xs ih =>
    by_cases h : a = x
    · simp only [decide_not] at ih
      simp [h, List.count_cons, List.filter_cons]
      omega
    · simp only [decide_not] at ih
      simp [h, List.count_cons, List.filter_cons]
      omega

theorem sum_counts_uniqueFirst {α : Type} [DecidableEq α] (s : List α) :
    ((uniqueFirst s).map (fun v => s.count v)).sum = s.length := by
  induction s using uniqueFirst.induct with
  | case1 => simp [uniqueFirst]
  | case2 x xs ih =>
    simp only [uniqueFirst, List.map_cons, List.sum_cons]
    have hcong :
        (uniqueFirst (xs.filter (fun y => ¬ y = x))).map
          (fun v => (x :: xs).count v) =
        (uniqueFirst (xs.filter (fun y => ¬ y = x))).map
          (fun v => (xs.filter (fun y => ¬ y = x)).count v) := by
      apply List.map_congr_left
      intro v hv
      rw [mem_uniqueFirst] at hv
      have hvx : ¬ v = x := by
        have := List.of_mem_filter hv
        simpa using this
      rw [List.count_cons_of_ne hvx]
      rw [List.count_filter]
      simpa using hvx
    rw [hcong, ih]
    rw [List.count_cons_self]
    have := count_filter_ne_add_count x xs
    simp only [List.length_cons]
    omega

theorem valueCounts_perm (s : List Value) :
    (valueCounts s).Perm ((uniqueFirst s).map (fun v => (v, s.count v))) :=
  List.mergeSort_perm _ _

theorem mem_valueCounts {s : List Value} {p : Value × Nat}
    (hp : p ∈ valueCounts s) : p.1 ∈ s ∧ p.2 = s.count p.1 := by
  have := (valueCounts_perm s).mem_iff.mp hp
  simp only [List.mem_map] at this
  obtain ⟨v, hv, hveq⟩ := this
  rw [mem_uniqueFirst] at hv
  cases hveq
  exact ⟨hv, rfl⟩

theorem valueCounts_keys_perm (s : List Value) :
    ((valueCounts s).map Prod.fst).Perm (uniqueFirst s) := by
  have h := (valueCounts_perm s).map Prod.fst
  rw [List.map_map] at h
  have hid : (Prod.fst ∘ fun v : Value => (v, s.count v)) = id := rfl
  rw [hid, List.map_id] at h
  exact h

theorem count_valueCounts_keys (s : List Value) (v : Value) (hv : v ∈ s) :
    ((valueCounts s).map Prod.fst).count v = 1 := by
  rw [(valueCounts_keys_perm s).count_eq]
  exact List.count_eq_one_of_mem (nodup_uniqueFirst s)
    ((mem_uniqueFirst v s).mpr hv)

theorem nodup_valueCounts_keys (s : List Value) :
    ((valueCounts s).map Prod.fst).Nodup :=
  (valueCounts_keys_perm s).nodup_iff.mpr (nodup_uniqueFirst s)

theorem mem_valueCounts_of_mem (s : List Value) (v : Value) (hv : v ∈ s) :
    (v, s.count v) ∈ valueCounts s := by
  rw [(valueCounts_perm s).mem_iff]
  simp only [List.mem_map]
  exact ⟨v, (mem_uniqueFirst v s).mpr hv, rfl⟩

theorem sum_valueCounts (s : List Value) :
    ((valueCounts s).map Prod.snd).sum = s.length := by
  have h := (valueCounts_perm s).map Prod.snd
  rw [h.sum_eq]
  rw [List.map_map]
  simpa [Function.comp] using sum_counts_uniqueFirst s

/-! ## The `Aggregator` hierarchy -/

/-- A value stored in an aggregator's `_data` dictionary.  The Python code is
dynamically typed: `SingleAggregator` and `Average` store the plain string
`"NONE"` as their second "dataframe", so entries are either real tables or
strings. -/
inductive PyVal where
  | df (d : DataFrame)
  | pystr (s : String)
deriving DecidableEq, Repr

/-- The exceptions the module raises. -/
inductive PyError where
  | keyError (msg : String)
  | valueError (msg : String)
deriving DecidableEq, Repr

/-- State of an `Aggregator` (base class) instance: the `_data` dictionary
(keys are Python labels, which may be `None`), the two labels, the two
relationship keys, and the `_relationships` dictionary. -/
structure Aggregator where
  _data : List (Option String × PyVal)
  _label1 : Option String
  _label2 : Option String
  _rkey1 : Option String
  _rkey2 : Option String
  _relationships : List (String × String)
deriving DecidableEq, Repr

/-- `Aggregator.__init__(data1, data2=None, rkey1=None, rkey2=None,
label1='data1', label2='data2')`.  Mirrors the Python statement order:
`_data = {label1: data1}`, set the scalar attributes, then if `rkey1` is not
`None` require `rkey2` (else `KeyError`) and `data2` (else `KeyError`) and
record the relationship; finally, if `data2` is not `None`, store it under
`label2`.  Defaults are supplied explicitly by callers. -/
def aggregatorInit (data1 : PyVal) (data2 : Option PyVal)
    (rkey1 rkey2 label1 label2 : Option String) : Except PyError Aggregator :=
  let base : Aggregator :=
    { _data := [(label1, data1)], _label1 := label1, _label2 := label2,
      _rkey1 := rkey1, _rkey2 := rkey2, _relationships := [] }
  let step : Except PyError Aggregator :=
    match rkey1 with
    | none => .ok base
    | some k1 =>
      match rkey2 with
      | none => .error (.keyError "need both keys for a relationship")
      | some k2 =>
        match data2 with
        | none =>
          .error (.keyError "need multiple dataframes to define the relationship")
        | some _ => .ok { base with _relationships := [(k1, k2)] }
  match step with
  | .error e => .error e
  | .ok st =>
    match data2 with
    | some d2 => .ok { st with _data := dictSet st._data label2 d2 }
    | none => .ok st

/-- Python `str(...)` of a label for the `relationships` f-string (`None`
prints as `"None"`). -/
def optLabelStr : Option String → String
  | none => "None"
  | some s => s

/-- The `relationships` property: the header line followed by one
`label1.key -> label2.rel` line per entry of the `_relationships` dictionary,
in insertion order. -/
def Aggregator.relationships (a : Aggregator) : String :=
  a._relationships.foldl
    (fun acc p =>
      acc ++ optLabelStr a._label1 ++ "." ++ p.1 ++ " -> " ++
        optLabelStr a._label2 ++ "." ++ p.2 ++ "\n")
    "\n RELATIONSHIPS:\n"

/-- `__getitem__`: data lookup by label (`none` models `KeyError`). -/
def Aggregator.getItem (a : Aggregator) (item : Option String) : Option PyVal :=
  dictFind? a._data item

/-- `keys()`: the labels of the stored data, in insertion order (the Python
method wraps them in a set). -/
def Aggregator.dataKeys (a : Aggregator) : List (Option String) :=
  a._data.map Prod.fst

/-- `new_relationship(rkey1, rkey2)`: dictionary assignment
`_relationships[rkey1] = rkey2` followed by overwriting `_rkey1`/`_rkey2`. -/
def Aggregator.new_relationship (a : Aggregator) (rkey1 rkey2 : String) :
    Aggregator :=
  { a with _relationships := dictSet a._relationships rkey1 rkey2,
           _rkey1 := some rkey1, _rkey2 := some rkey2 }

/-- Fetch the table stored under a label; `none` models the dynamic failures
(`KeyError` on the label, or the value not being a dataframe). -/
def getDF (a : Aggregator) (label : Option String) : Option DataFrame :=
  match a.getItem label with
  | some (.df d) => some d
  | _ => none

/-- `SingleAggregator.__init__(data, label=None, rkey1=None)`: delegates to
the base initializer with `data2="NONE"` (the string!), `rkey2="NONE"`,
`label1=label` and default `label2`. -/
def SingleAggregator.init (data : DataFrame) (label rkey1 : Option String) :
    Except PyError Aggregator :=
  aggregatorInit (.df data) (some (.pystr "NONE")) rkey1 (some "NONE") label
    (some "data2")

/-- `SingleAggregator.aggregate`: value-counts of column `_rkey1` of the
table labelled `_label1`, rendered as a two-column table
`(_rkey1, 'count')`.  `none` models the dynamic errors (missing label,
missing column, `_rkey1 = None`). -/
def SingleAggregator.aggregate (a : Aggregator) : Option DataFrame := do
  let df ← getDF a a._label1
  let k ← a._rkey1
  let col ← df.col? k
  let vc := valueCounts col
  pure ⟨[(k, vc.map Prod.fst), ("count", vc.map (fun p => Value.num p.2))]⟩

/-- `SimpleAggregator.aggregate`: value-counts of `data1[rkey1]`, then for
each unique value of `data2[rkey2]`, in order, append a `(value, 0)` row
whenever the value is not already present in the key column. -/
def SimpleAggregator.aggregate (a : Aggregator) : Option DataFrame := do
  let df2 ← getDF a a._label2
  let k2 ← a._rkey2
  let col2 ← df2.col? k2
  let relValues := uniqueFirst col2
  let df1 ← getDF a a._label1
  let k1 ← a._rkey1
  let col1 ← df1.col? k1
  let pairs := relValues.foldl
    (fun acc v => if acc.any (fun p => p.1 = v) then acc else acc ++ [(v, 0)])
    (valueCounts col1)
  pure ⟨[(k1, pairs.map Prod.fst), ("count", pairs.map (fun p => Value.num p.2))]⟩

/-- `Average.__init__(data, key, label=None)`: delegates to the base
initializer with `data2="NONE"`, `rkey1=key`, `rkey2="NONE"`. -/
def Average.init (data : DataFrame) (key : String) (label : Option String) :
    Except PyError Aggregator :=
  aggregatorInit (.df data) (some (.pystr "NONE")) (some key) (some "NONE")
    label (some "data2")

/-- `df.loc[df[k] == el]`: keep the rows whose `k` cell equals `el`;
column-major this filters every column by the key column's boolean mask. -/
def DataFrame.filterKey (df : DataFrame) (k : String) (el : Value) :
    DataFrame :=
  match df.col? k with
  | none => ⟨df.cols.map (fun p => (p.1, []))⟩
  | some keyCol =>
    ⟨df.cols.map (fun p =>
      (p.1, ((keyCol.zip p.2).filter (fun q => q.1 = el)).map Prod.snd))⟩

/-- Pandas `Series.mean()` on an all-numeric series: sum divided by length;
`none` models the loud failure on non-numeric cells. -/
def seriesMean (s : List Value) : Option ℚ :=
  (s.mapM Value.asNum).map (fun l => l.sum / (l.length : ℚ))

/-- The mean of column `c` restricted to the rows whose `k` cell is `el`. -/
def groupMean (df : DataFrame) (k : String) (el : Value) (c : String) :
    Option ℚ :=
  ((df.filterKey k el).col? c).bind seriesMean

/-- The inner part of `pd.merge(left, right, on=key)` for the shapes
`Average.aggregate` produces: `left` is the two-column counts table as
`(key value, count)` pairs and `right` the `avgs` rows (key value first).
Inner join on the key, left order outer, right order inner. -/
def mergeOnKey (left : List (Value × ℚ)) (right : List (List Value)) :
    List (List Value) :=
  left.flatMap (fun p =>
    ((right.filter (fun r => r.head? = some p.1)).map
      (fun r => p.1 :: Value.num p.2 :: r.tail)))

/-- `pd.DataFrame(rows)` with `columns = names`: rebuild a column-major table
from row-major data. -/
def dfFromRows (names : List String) (rows : List (List Value)) : DataFrame :=
  ⟨names.enum.map (fun p =>
    (p.2, rows.map (fun r => r.getD p.1 (Value.str ""))))⟩

/-- `Average.aggregate`: value-counts of the key column as `(key, count)`,
then for each distinct key value (in value-counts order) a row
`[el, mean of col₁ over the el-group, ...]` for every non-key column, built
into the `avgs` table, finally `pd.merge` of the two on the key column.
`none` models the dynamic errors (missing label/column, non-numeric mean). -/
def Average.aggregate (a : Aggregator) : Option DataFrame := do
  let df ← getDF a a._label1
  let k ← a._rkey1
  let keyCol ← df.col? k
  let vc := valueCounts keyCol
  let otherCols := df.colNames.filter (fun c => ¬ c = k)
  let avgRows ← (vc.map Prod.fst).mapM (fun el => do
    let means ← otherCols.mapM (fun c => groupMean df k el c)
    pure (el :: means.map Value.num))
  let merged := mergeOnKey (vc.map (fun p => (p.1, (p.2 : ℚ)))) avgRows
  pure (dfFromRows (k :: "count" :: otherCols.map (fun c => c ++ "_avg")) merged)

/-- State-passing form of `SingleAggregator.aggregate`: the method body only
reads `self` (it assigns no attribute), so the embedded step returns the
input state together with the built table. -/
def SingleAggregator.aggregateS (a : Aggregator) :
    Aggregator × Option DataFrame :=
  (a, SingleAggregator.aggregate a)

/-- State-passing form of `SimpleAggregator.aggregate` (no attribute is
assigned by the method body). -/
def SimpleAggregator.aggregateS (a : Aggregator) :
    Aggregator × Option DataFrame :=
  (a, SimpleAggregator.aggregate a)

/-- State-passing form of `Average.aggregate` (no attribute is assigned by
the method body). -/
def Average.aggregateS (a : Aggregator) : Aggregator × Option DataFrame :=
  (a, Average.aggregate a)

/-! ## The `FeatureGenerator` hierarchy -/

/-- A feature generator instance: the `name` and `feature_type`
classification strings and the `generate_feature` operation. -/
structure FeatureGeneratorInst where
  name : String
  feature_type : String
  generate_feature : DataFrame → Option String → DataFrame

/-- `custom_generator(user_func, name='custom_feature',
feature_type='custom_feature_type')`: builds the `CustomGenerator` class whose
`generate_feature` delegates directly to `user_func` and returns an instance
of it.  No validation is performed.  Defaults are supplied by callers. -/
def custom_generator (user_func : DataFrame → Option String → DataFrame)
    (name feature_type : String) : FeatureGeneratorInst :=
  { name := name, feature_type := feature_type,
    generate_feature := fun data column => user_func data column }

/-- The pandas dtypes the module distinguishes. -/
inductive DType where
  | dtDatetime
  | dtNumeric
  | dtObject
deriving DecidableEq, Repr

/-- The dtype of a column in the value model: a nonempty all-timestamp column
is `datetime64[ns]`, a nonempty all-numeric column is numeric, and anything
else (strings, mixed content, time objects, empty) is `object`. -/
def colDType (s : List Value) : DType :=
  if ¬ s = [] ∧ s.all Value.isTs then .dtDatetime
  else if ¬ s = [] ∧ s.all Value.isNum then .dtNumeric
  else .dtObject

/-- Elementwise `pd.to_datetime` of the external library on one cell, for the
value kinds the repository manipulates: timestamps pass through and strings
go through the environment's parser `parse`; other cells do not convert. -/
def cellToTs (parse : String → Option Timestamp) : Value → Option Timestamp
  | .ts t => some t
  | .str s => parse s
  | _ => none

/-- `pd.to_datetime(series, errors='ignore')`: the whole column converts only
when every cell converts, otherwise it is returned unchanged. -/
def toDatetimeIgnore (parse : String → Option Timestamp) (s : List Value) :
    List Value :=
  match s.mapM (cellToTs parse) with
  | some ts => ts.map Value.ts
  | none => s

/-- Replacing a timestamp cell by its hour of day (`time.hour`); the loops
that apply this only visit all-timestamp columns, so other cells pass
through. -/
def hourCell : Value → Value
  | .ts t => .num (t.tod.hour : ℚ)
  | v => v

/-- `Hour.generate_feature(data, column=None)`.  With `column=None`: collect
the object-dtype columns, coerce each with `pd.to_datetime(..., errors=
'ignore')`, then rewrite every `datetime64[ns]` column cell-by-cell to its
hour; no error path exists in this branch.  With a column given: try the
per-cell hour loop, and on `AttributeError` (some cell is not a timestamp)
coerce the column with `pd.to_datetime` (which raises on unconvertible data)
and redo the loop.  The Python loops run per column name; with pandas-valid
(distinct) labels they act on each column independently, which the maps
mirror. -/
def Hour.generate_feature (parse : String → Option Timestamp)
    (data : DataFrame) (column : Option String) : Except PyError DataFrame :=
  match column with
  | none =>
    let coerced : DataFrame :=
      ⟨data.cols.map (fun p =>
        if colDType p.2 = .dtObject then (p.1, toDatetimeIgnore parse p.2)
        else p)⟩
    .ok ⟨coerced.cols.map (fun p =>
      if colDType p.2 = .dtDatetime then (p.1, p.2.map hourCell) else p)⟩
  | some c =>
    match data.col? c with
    | none => .error (.keyError c)
    | some s =>
      if s.all Value.isTs then
        .ok (data.setCol c (s.map hourCell))
      else
        match s.mapM (cellToTs parse) with
        | none => .error (.valueError "could not convert column to datetime")
        | some ts =>
          .ok (data.setCol c ((ts.map Value.ts).map hourCell))

/-- The five derived columns of `DateTimeInfo` followed by dropping the
original: `{c}_year`, `{c}_month`, `{c}_day`, `{c}_weekday` (Monday = 0) and
`{c}_time` (`.dt.time`), computed from the column's timestamps `ts`. -/
def DateTimeInfo.split (data : DataFrame) (c : String) (ts : List Timestamp) :
    DataFrame :=
  (((((data.setCol (c ++ "_year") (ts.map (fun t => Value.num (t.year : ℚ)))).setCol
    (c ++ "_month") (ts.map (fun t => Value.num (t.month : ℚ)))).setCol
    (c ++ "_day") (ts.map (fun t => Value.num (t.day : ℚ)))).setCol
    (c ++ "_weekday") (ts.map (fun t => Value.num (t.weekday : ℚ)))).setCol
    (c ++ "_time") (ts.map (fun t => Value.time t.tod))).dropCol c

/-- `DateTimeInfo.generate_feature(data, column=None)`: `ValueError` when the
column is omitted; otherwise read the column (`KeyError` when missing), and
if some cell is not a timestamp (`AttributeError` in the `try`) coerce the
column with `pd.to_datetime` — which raises on unconvertible data — before
computing the five split columns and dropping the original. -/
def DateTimeInfo.generate_feature (parse : String → Option Timestamp)
    (data : DataFrame) (column : Option String) : Except PyError DataFrame :=
  match column with
  | none => .error (.valueError "timestamp column must be given")
  | some c =>
    match data.col? c with
    | none => .error (.keyError c)
    | some s =>
      match s.mapM (cellToTs parse) with
      | none => .error (.valueError "could not convert column to datetime")
      | some ts =>
        if s.all Value.isTs then
          .ok (DateTimeInfo.split data c ts)
        else
          .ok (DateTimeInfo.split (data.setCol c (ts.map Value.ts)) c ts)

/-! ## Concrete fixtures (the repository's test datasets) -/

/-- The `single_dataset` fixture. -/
def dfAnimals : DataFrame :=
  ⟨[("animal", [Value.str "dog", Value.str "cat", Value.str "monkey"]),
    ("num_legs", [Value.num 4, Value.num 4, Value.num 2]),
    ("num_arms", [Value.num 0, Value.num 0, Value.num 2])]⟩

/-- The first table of the `multi_dataset` fixture. -/
def dfAnimalsTyped : DataFrame :=
  ⟨[("animal", [Value.str "dog", Value.str "cat", Value.str "monkey",
      Value.str "lizard"]),
    ("num_legs", [Value.num 4, Value.num 4, Value.num 2, Value.num 4]),
    ("num_arms", [Value.num 0, Value.num 0, Value.num 2, Value.num 0]),
    ("type", [Value.str "mammal", Value.str "mammal", Value.str "mammal",
      Value.str "reptile"])]⟩

/-- The second table of the `multi_dataset` fixture. -/
def dfTypes : DataFrame :=
  ⟨[("type", [Value.str "mammal", Value.str "reptile", Value.str "insect"]),
    ("blood_temp", [Value.str "warm", Value.str "cold", Value.str "idk"]),
    ("birth_type", [Value.str "live", Value.str "eggs", Value.str "eggs"])]⟩

/-! ## C7: the custom-generator factory -/

/-- C7: for every user function `f`, table, and column argument, the
generator built by `custom_generator(f, name, feature_type)` returns exactly
`f(table, column)` from `generate_feature`, with no other observable effect
and no validation, and exposes the caller-supplied `name` and `feature_type`
strings. -/
theorem custom_generator_delegates
    (f : DataFrame → Option String → DataFrame) (nm ft : String)
    (data : DataFrame) (column : Option String) :
    (custom_generator f nm ft).generate_feature data column = f data column ∧
    (custom_generator f nm ft).name = nm ∧
    (custom_generator f nm ft).feature_type = ft :=
  ⟨rfl, rfl, rfl⟩

/-! ## C10: `aggregate` leaves the aggregator state unchanged -/

/-- C10: for every `SingleAggregator`, `SimpleAggregator` and `Average`
state, the `aggregate` step returns the stored tables, labels and
relationship mapping unchanged (the methods never assign to `self`), so a
second call yields an equal result. -/
theorem aggregate_state_frame (a : Aggregator) :
    (SingleAggregator.aggregateS a).1 = a ∧
    (SimpleAggregator.aggregateS a).1 = a ∧
    (Average.aggregateS a).1 = a ∧
    (SingleAggregator.aggregateS (SingleAggregator.aggregateS a).1).2
      = (SingleAggregator.aggregateS a).2 ∧
    (SimpleAggregator.aggregateS (SimpleAggregator.aggregateS a).1).2
      = (SimpleAggregator.aggregateS a).2 ∧
    (Average.aggregateS (Average.aggregateS a).1).2
      = (Average.aggregateS a).2 :=
  ⟨rfl, rfl, rfl, rfl, rfl, rfl⟩

/-! ## C5: construction-time key-configuration errors -/

/-- C5: whenever a left key is supplied to the `Aggregator` initializer, the
construction fails with a `KeyError` carrying the missing-right-key message
when no right key is given, fails with a distinct `KeyError` message when no
second table is given, and succeeds when both are present; the error is
produced by the initializer itself (so it reaches the caller immediately). -/
theorem aggregatorInit_key_errors (data1 : PyVal) (data2 : Option PyVal)
    (k1 : String) (rkey2 label1 label2 : Option String) :
    (rkey2 = none →
      aggregatorInit data1 data2 (some k1) rkey2 label1 label2
        = .error (.keyError "need both keys for a relationship")) ∧
    (∀ k2 : String, rkey2 = some k2 → data2 = none →
      aggregatorInit data1 data2 (some k1) rkey2 label1 label2
        = .error
            (.keyError "need multiple dataframes to define the relationship")) ∧
    (∀ (k2 : String) (d2 : PyVal), rkey2 = some k2 → data2 = some d2 →
      ∃ st, aggregatorInit data1 data2 (some k1) rkey2 label1 label2
        = .ok st ∧ st._relationships = [(k1, k2)]) ∧
    ¬ ("need both keys for a relationship"
        = "need multiple dataframes to define the relationship") := by
  refine ⟨?_, ?_, ?_, by decide⟩
  · rintro rfl
    rfl
  · rintro k2 rfl rfl
    rfl
  · rintro k2 d2 rfl rfl
    exact ⟨_, rfl, rfl⟩

/-- C5 witness: the missing-right-key and missing-second-table scenarios of
the repository's own test, checked concretely. -/
theorem aggregatorInit_key_errors_witness :
    aggregatorInit (PyVal.df dfAnimalsTyped) (some (PyVal.df dfTypes))
        (some "type") none (some "data1") (some "data2")
      = .error (.keyError "need both keys for a relationship") ∧
    aggregatorInit (PyVal.df dfAnimalsTyped) none (some "type") (some "type")
        (some "data1") (some "data2")
      = .error
          (.keyError "need multiple dataframes to define the relationship") :=
  ⟨(aggregatorInit_key_errors (PyVal.df dfAnimalsTyped)
      (some (PyVal.df dfTypes)) "type" none (some "data1")
      (some "data2")).1 rfl,
   (aggregatorInit_key_errors (PyVal.df dfAnimalsTyped) none "type"
      (some "type") (some "data1") (some "data2")).2.1 "type" rfl rfl⟩

/-! ## Dictionary lemmas -/

theorem find?_map_update {K V : Type} [DecidableEq K]
    (d : List (K × V)) (k : K) (v : V) (hk : ∃ p ∈ d, p.1 = k) :
    (d.map (fun p => if p.1 = k then (k, v) else p)).find?
      (fun p => p.1 = k) = some (k, v) := by
  induction d with
  | nil => simp at hk
  | cons a d ih =>
    by_cases ha : a.1 = k
    · rw [List.map_cons, if_pos ha]
      exact List.find?_cons_of_pos _ (by simp)
    · obtain ⟨p0, hp0, hpk⟩ := hk
      rcases List.mem_cons.mp hp0 with rfl | hmem
      · exact absurd hpk ha
      · rw [List.map_cons, if_neg ha]
        rw [List.find?_cons_of_neg _ (by simpa using ha)]
        exact ih ⟨p0, hmem, hpk⟩

theorem find?_append_fresh {K V : Type} [DecidableEq K]
    (d : List (K × V)) (k : K) (v : V) (hk : ∀ p ∈ d, ¬ p.1 = k) :
    (d ++ [(k, v)]).find? (fun p => p.1 = k) = some (k, v) := by
  induction d with
  | nil => exact List.find?_cons_of_pos _ (by simp)
  | cons a d ih =>
    rw [List.cons_append,
      List.find?_cons_of_neg _ (by simpa using hk a (List.mem_cons_self a d))]
    exact ih (fun p hp => hk p (List.mem_cons_of_mem a hp))

theorem dictFind?_dictSet_self {K V : Type} [DecidableEq K]
    (d : List (K × V)) (k : K) (v : V) :
    dictFind? (dictSet d k v) k = some v := by
  rw [dictFind?, dictSet]
  by_cases h : d.any (fun p => p.1 = k)
  · rw [if_pos h]
    rw [List.any_eq_true] at h
    have hex : ∃ p ∈ d, p.1 = k := by simpa using h
    rw [find?_map_update d k v hex]
    rfl
  · rw [if_neg h]
    rw [List.any_eq_true] at h
    push_neg at h
    rw [find?_append_fresh d k v (by simpa using h)]
    rfl

theorem dictSet_length {K V : Type} [DecidableEq K]
    (d : List (K × V)) (k : K) (v : V) :
    (dictSet d k v).length
      = if d.any (fun p => p.1 = k) then d.length else d.length + 1 := by
  rw [dictSet]
  by_cases h : d.any (fun p => p.1 = k)
  · rw [if_pos h, if_pos h, List.length_map]
  · rw [if_neg h, if_neg h, List.length_append]
    rfl

theorem any_of_dictFind?_eq_some {K V : Type} [DecidableEq K]
    {d : List (K × V)} {k : K} {v : V} (h : dictFind? d k = some v) :
    d.any (fun p => p.1 = k) := by
  rw [dictFind?] at h
  obtain ⟨p, hp, rfl⟩ := Option.map_eq_some'.mp h
  rw [List.any_eq_true]
  exact ⟨p, List.mem_of_find?_eq_some hp,
    by simpa using List.find?_some hp⟩

/-! ## C6: the relationship mapping -/

/-- The aggregator state built by
`SimpleAggregator(dfAnimalsTyped, dfTypes)` (default labels, no keys). -/
def aggEx : Aggregator :=
  { _data := [(some "data1", .df dfAnimalsTyped), (some "data2", .df dfTypes)],
    _label1 := some "data1", _label2 := some "data2",
    _rkey1 := none, _rkey2 := none, _relationships := [] }

/-- C6 counterexample: on the aggregator built from the repository's own
`multi_dataset` fixture, declaring `new_relationship('type','type')` and then
re-declaring with a different left key `new_relationship('animal','type')`
leaves TWO entries in the `_relationships` mapping, and the `relationships`
description lists both pairs — not a single active pair. -/
theorem new_relationship_not_single :
    aggregatorInit (PyVal.df dfAnimalsTyped) (some (PyVal.df dfTypes)) none
        none (some "data1") (some "data2") = .ok aggEx ∧
    ((aggEx.new_relationship "type" "type").new_relationship "animal"
        "type")._relationships = [("type", "type"), ("animal", "type")] ∧
    ((aggEx.new_relationship "type" "type").new_relationship "animal"
        "type").relationships
      = "\n RELATIONSHIPS:\ndata1.type -> data2.type\ndata1.animal -> data2.type\n" :=
  ⟨rfl, rfl, rfl⟩

/-- C6 amended: `new_relationship` overwrites the `_rkey1`/`_rkey2` pair that
`aggregate` uses, and updates the `_relationships` mapping keyed by the left
key name: re-declaring with the same left key replaces that entry (the
mapping does not grow), while a different left key adds an entry, so the
mapping — and the `relationships` description derived from it — can hold
several pairs even though `aggregate` always uses the last-declared pair. -/
theorem new_relationship_replaces_active_pair (a : Aggregator)
    (k1 k2 : String) :
    ((a.new_relationship k1 k2)._rkey1 = some k1) ∧
    ((a.new_relationship k1 k2)._rkey2 = some k2) ∧
    dictFind? (a.new_relationship k1 k2)._relationships k1 = some k2 ∧
    ((a.new_relationship k1 k2)._relationships.length
      = if a._relationships.any (fun p => p.1 = k1) then
          a._relationships.length
        else a._relationships.length + 1) ∧
    (∀ k2' : String,
      ((a.new_relationship k1 k2).new_relationship k1 k2')._relationships.length
        = (a.new_relationship k1 k2)._relationships.length) := by
  refine ⟨rfl, rfl, dictFind?_dictSet_self _ _ _, dictSet_length _ _ _, ?_⟩
  intro k2'
  show (dictSet (dictSet a._relationships k1 k2) k1 k2').length = _
  rw [dictSet_length]
  rw [if_pos (any_of_dictFind?_eq_some (dictFind?_dictSet_self
    a._relationships k1 k2))]
  rfl

/-! ## C9: table storage and lookup by label -/

/-- The aggregator state built by
`SingleAggregator(single_dataset, rkey1='animal')` (no label supplied). -/
def singleEx : Aggregator :=
  { _data := [(none, .df dfAnimals), (some "data2", .pystr "NONE")],
    _label1 := none, _label2 := some "data2",
    _rkey1 := some "animal", _rkey2 := some "NONE",
    _relationships := [("animal", "NONE")] }

/-- C9 counterexample: `SingleAggregator(single_dataset, rkey1='animal')` —
constructed without an explicit label, exactly as in the repository's tests —
does not store its table under the default label `data1`: looking up
`data1` fails (`KeyError`, modelled by `none`); the table sits under the
Python `None` label instead. -/
theorem singleAggregator_label_not_default :
    SingleAggregator.init dfAnimals none (some "animal") = .ok singleEx ∧
    singleEx.getItem (some "data1") = none ∧
    singleEx.getItem none = some (.df dfAnimals) ∧
    singleEx.dataKeys = [none, some "data2"] :=
  ⟨rfl, rfl, rfl, rfl⟩

/-- C9 amended: the base `Aggregator` stores its one or two tables under the
default labels `data1`/`data2` when the caller omits the labels, and lookup
by label returns the stored table; but `SingleAggregator` and `Average`
constructed without an explicit label pass `label=None` through, so their
table is stored under the `None` label (lookup of `data1` fails) and the
placeholder string `"NONE"` is stored under `data2`. -/
theorem aggregator_data_labels :
    (∀ d1 d2 : PyVal, ∃ st,
      aggregatorInit d1 (some d2) none none (some "data1") (some "data2")
        = .ok st ∧
      st.dataKeys = [some "data1", some "data2"] ∧
      st.getItem (some "data1") = some d1 ∧
      st.getItem (some "data2") = some d2) ∧
    (∀ (df : DataFrame) (rk : Option String), ∃ st,
      SingleAggregator.init df none rk = .ok st ∧
      st.dataKeys = [none, some "data2"] ∧
      st.getItem none = some (.df df) ∧
      st.getItem (some "data1") = none ∧
      st.getItem (some "data2") = some (.pystr "NONE")) ∧
    (∀ (df : DataFrame) (key : String), ∃ st,
      Average.init df key none = .ok st ∧
      st.dataKeys = [none, some "data2"] ∧
      st.getItem none = some (.df df) ∧
      st.getItem (some "data1") = none ∧
      st.getItem (some "data2") = some (.pystr "NONE")) := by
  refine ⟨?_, ?_, ?_⟩
  · intro d1 d2
    exact ⟨_, rfl, rfl, rfl, rfl⟩
  · intro df rk
    cases rk with
    | none => exact ⟨_, rfl, rfl, rfl, rfl, rfl⟩
    | some k => exact ⟨_, rfl, rfl, rfl, rfl, rfl⟩
  · intro df key
    exact ⟨_, rfl, rfl, rfl, rfl, rfl⟩

/-! ## C3: `SingleAggregator.aggregate` -/

/-- C3: for every non-empty table and designated key column, the
`SingleAggregator` built on it aggregates to a two-column table
`(key, count)` whose pair list, ignoring order, equals the
distinct-value/frequency multiset of the input key column, and whose counts
sum to the table's row count (the key column's length). -/
theorem singleAggregator_counts (df : DataFrame) (label : Option String)
    (k : String) (keyCol : List Value)
    (hlabel : ¬ label = some "data2")
    (hcol : df.col? k = some keyCol)
    (hrows : ¬ keyCol = []) :
    ∃ st out, SingleAggregator.init df label (some k) = .ok st ∧
      SingleAggregator.aggregate st = some out ∧
      ∃ pairs : List (Value × Nat),
        out = ⟨[(k, pairs.map Prod.fst),
                ("count", pairs.map (fun p => Value.num (p.2 : ℚ)))]⟩ ∧
        pairs.Perm ((uniqueFirst keyCol).map (fun v => (v, keyCol.count v))) ∧
        (pairs.map Prod.snd).sum = keyCol.length := by
  refine ⟨{ _data := [(label, .df df), (some "data2", .pystr "NONE")],
            _label1 := label, _label2 := some "data2",
            _rkey1 := some k, _rkey2 := some "NONE",
            _relationships := [(k, "NONE")] },
          ⟨[(k, (valueCounts keyCol).map Prod.fst),
            ("count", (valueCounts keyCol).map (fun p => Value.num (p.2 : ℚ)))]⟩,
          ?_, ?_, ?_⟩
  · rw [SingleAggregator.init, aggregatorInit]
    simp [dictSet, hlabel]
  · rw [SingleAggregator.aggregate]
    simp [getDF, Aggregator.getItem, dictFind?, hcol]
  · exact ⟨valueCounts keyCol, rfl, valueCounts_perm keyCol,
      sum_valueCounts keyCol⟩

/-- C3 witness: the repository's `single_dataset` scenario,
`SingleAggregator(df, rkey1='animal')`, satisfies the hypotheses and hence
the conclusion. -/
theorem singleAggregator_counts_witness :
    (¬ (none : Option String) = some "data2") ∧
    dfAnimals.col? "animal"
      = some [Value.str "dog", Value.str "cat", Value.str "monkey"] ∧
    (¬ ([Value.str "dog", Value.str "cat", Value.str "monkey"]
        : List Value) = []) ∧
    (∃ st out, SingleAggregator.init dfAnimals none (some "animal") = .ok st ∧
      SingleAggregator.aggregate st = some out ∧
      ∃ pairs : List (Value × Nat),
        out = ⟨[("animal", pairs.map Prod.fst),
                ("count", pairs.map (fun p => Value.num (p.2 : ℚ)))]⟩ ∧
        pairs.Perm ((uniqueFirst
            [Value.str "dog", Value.str "cat", Value.str "monkey"]).map
          (fun v => (v,
            List.count v
              [Value.str "dog", Value.str "cat", Value.str "monkey"]))) ∧
        (pairs.map Prod.snd).sum
          = ([Value.str "dog", Value.str "cat", Value.str "monkey"]
              : List Value).length) :=
  ⟨by decide, rfl, by decide,
    singleAggregator_counts dfAnimals none "animal"
      [Value.str "dog", Value.str "cat", Value.str "monkey"]
      (by decide) rfl (by decide)⟩

/-! ## C1: `SimpleAggregator.aggregate` -/

theorem any_valueCounts_eq_true_iff (s : List Value) (v : Value) :
    ((valueCounts s).any (fun p => p.1 = v) = true) ↔ v ∈ s := by
  rw [List.any_eq_true]
  constructor
  · rintro ⟨p, hp, hpv⟩
    have hmem := (mem_valueCounts hp).1
    simp only [decide_eq_true_eq] at hpv
    rwa [hpv] at hmem
  · intro hv
    exact ⟨(v, s.count v), mem_valueCounts_of_mem s v hv, by simp⟩

theorem not_mem_valueCounts_keys (s : List Value) (v : Value)
    (hv : ¬ v ∈ s) : ¬ v ∈ (valueCounts s).map Prod.fst := by
  intro hmem
  rw [(valueCounts_keys_perm s).mem_iff, mem_uniqueFirst] at hmem
  exact hv hmem

/-- The zero-fill loop of `SimpleAggregator.aggregate`: folding the
append-if-absent step over a duplicate-free value list appends exactly the
`(v, 0)` rows for the values not already present in the base table. -/
theorem foldl_zero_fill (base : List (Value × Nat)) (vs : List Value)
    (hnd : vs.Nodup) :
    vs.foldl (fun acc v =>
        if acc.any (fun p => p.1 = v) then acc else acc ++ [(v, 0)]) base
      = base ++ (vs.filter
          (fun v => ¬ base.any (fun p => p.1 = v))).map (fun v => (v, 0)) := by
  induction vs generalizing base with
  | nil => simp
  | cons v vs ih =>
    obtain ⟨hv, hnd'⟩ := List.nodup_cons.mp hnd
    rw [List.foldl_cons, List.filter_cons]
    by_cases h : base.any (fun p => p.1 = v)
    · rw [if_pos h, ih base hnd']
      have hc : (decide (¬ base.any (fun p => p.1 = v) = true)) = false := by
        simp [h]
      simp only [hc, Bool.false_eq_true, if_false]
    · rw [if_neg h, ih (base ++ [(v, 0)]) hnd']
      have hc : (decide (¬ base.any (fun p => p.1 = v) = true)) = true := by
        simp [h]
      simp only [hc, if_true, List.map_cons]
      have hfc : vs.filter
            (fun x => ¬ (base ++ [(v, 0)]).any (fun p => p.1 = x))
          = vs.filter (fun x => ¬ base.any (fun p => p.1 = x)) := by
        apply List.filter_congr
        intro x hx
        have hne : ¬ v = x := fun he => hv (he ▸ hx)
        simp [List.any_append, hne]
      rw [hfc]
      simp

/-- C1: for every pair of tables with join columns `k1` (in table 1) and
`k2` (in table 2), the `SimpleAggregator` built on them aggregates to a
two-column `(k1, count)` table in which every distinct value of table 2's
`k2` column appears exactly once in the key column; values present in
table 1's `k1` column carry their true frequency there, values absent from
it carry count 0, and the zero-fill rows sit after the naturally counted
value-counts rows. -/
theorem simpleAggregator_relational_count (df1 df2 : DataFrame)
    (k1 k2 : String) (col1 col2 : List Value)
    (h1 : df1.col? k1 = some col1) (h2 : df2.col? k2 = some col2) :
    ∃ st out, aggregatorInit (.df df1) (some (.df df2)) (some k1) (some k2)
        (some "data1") (some "data2") = .ok st ∧
      SimpleAggregator.aggregate st = some out ∧
      ∃ pairs : List (Value × Nat),
        out = ⟨[(k1, pairs.map Prod.fst),
                ("count", pairs.map (fun p => Value.num (p.2 : ℚ)))]⟩ ∧
        (∀ v ∈ col2, (pairs.map Prod.fst).count v = 1) ∧
        (∀ v ∈ col2, v ∈ col1 → (v, col1.count v) ∈ pairs) ∧
        (∀ v ∈ col2, ¬ v ∈ col1 → (v, 0) ∈ pairs) ∧
        ∃ zfill, pairs = valueCounts col1 ++ zfill ∧
          ∀ p ∈ zfill, p.1 ∈ col2 ∧ ¬ p.1 ∈ col1 ∧ p.2 = 0 := by
  have hzf := foldl_zero_fill (valueCounts col1) (uniqueFirst col2)
    (nodup_uniqueFirst col2)
  set zfill := ((uniqueFirst col2).filter
    (fun v => ¬ (valueCounts col1).any (fun p => p.1 = v))).map
    (fun v => (v, (0 : Nat))) with hzfill
  refine ⟨{ _data := [(some "data1", .df df1), (some "data2", .df df2)],
            _label1 := some "data1", _label2 := some "data2",
            _rkey1 := some k1, _rkey2 := some k2,
            _relationships := [(k1, k2)] },
          ⟨[(k1, (valueCounts col1 ++ zfill).map Prod.fst),
            ("count", (valueCounts col1 ++ zfill).map
              (fun p => Value.num (p.2 : ℚ)))]⟩, rfl, ?_,
          valueCounts col1 ++ zfill, rfl, ?_, ?_, ?_, zfill, rfl, ?_⟩
  · rw [SimpleAggregator.aggregate]
    simp only [getDF, Aggregator.getItem, dictFind?]
    simp [h1, h2, hzf]
  · intro v hv
    rw [List.map_append, List.count_append]
    have hzkeys : zfill.map Prod.fst = (uniqueFirst col2).filter
        (fun v => ¬ (valueCounts col1).any (fun p => p.1 = v)) := by
      rw [hzfill, List.map_map]
      exact List.map_id _
    by_cases hc1 : v ∈ col1
    · rw [count_valueCounts_keys col1 v hc1]
      have : ¬ v ∈ zfill.map Prod.fst := by
        rw [hzkeys]
        intro hmem
        have := List.of_mem_filter hmem
        simp only [decide_eq_true_eq] at this
        exact this ((any_valueCounts_eq_true_iff col1 v).mpr hc1)
      rw [List.count_eq_zero.mpr this]
    · have hvc0 : ((valueCounts col1).map Prod.fst).count v = 0 :=
        List.count_eq_zero.mpr (not_mem_valueCounts_keys col1 v hc1)
      rw [hvc0]
      have hmem : v ∈ zfill.map Prod.fst := by
        rw [hzkeys]
        apply List.mem_filter.mpr
        refine ⟨(mem_uniqueFirst v col2).mpr hv, ?_⟩
        simp only [decide_eq_true_eq]
        intro hany
        exact hc1 ((any_valueCounts_eq_true_iff col1 v).mp hany)
      have hnd : (zfill.map Prod.fst).Nodup := by
        rw [hzkeys]
        exact (nodup_uniqueFirst col2).filter _
      rw [List.count_eq_one_of_mem hnd hmem]
  · intro v hv hc1
    exact List.mem_append_left _ (mem_valueCounts_of_mem col1 v hc1)
  · intro v hv hc1
    apply List.mem_append_right
    rw [hzfill]
    apply List.mem_map.mpr
    refine ⟨v, ?_, rfl⟩
    apply List.mem_filter.mpr
    refine ⟨(mem_uniqueFirst v col2).mpr hv, ?_⟩
    simp only [decide_eq_true_eq]
    intro hany
    exact hc1 ((any_valueCounts_eq_true_iff col1 v).mp hany)
  · intro p hp
    rw [hzfill] at hp
    obtain ⟨v, hvmem, rfl⟩ := List.mem_map.mp hp
    have hvin := List.mem_of_mem_filter hvmem
    have hvcond := List.of_mem_filter hvmem
    simp only [decide_eq_true_eq] at hvcond
    refine ⟨(mem_uniqueFirst v col2).mp hvin, ?_, rfl⟩
    intro hc1
    exact hvcond ((any_valueCounts_eq_true_iff col1 v).mpr hc1)

/-- C1 witness: the repository's `multi_dataset` scenario
(`type` joined to `type`), which yields counts mammal 3, reptile 1 and the
zero-filled insect 0. -/
theorem simpleAggregator_relational_count_witness :
    dfAnimalsTyped.col? "type"
      = some [Value.str "mammal", Value.str "mammal", Value.str "mammal",
          Value.str "reptile"] ∧
    dfTypes.col? "type"
      = some [Value.str "mammal", Value.str "reptile", Value.str "insect"] ∧
    (∃ st out, aggregatorInit (.df dfAnimalsTyped) (some (.df dfTypes))
        (some "type") (some "type") (some "data1") (some "data2") = .ok st ∧
      SimpleAggregator.aggregate st = some out ∧
      ∃ pairs : List (Value × Nat),
        out = ⟨[("type", pairs.map Prod.fst),
                ("count", pairs.map (fun p => Value.num (p.2 : ℚ)))]⟩ ∧
        (∀ v ∈ [Value.str "mammal", Value.str "reptile", Value.str "insect"],
          (pairs.map Prod.fst).count v = 1) ∧
        (∀ v ∈ [Value.str "mammal", Value.str "reptile", Value.str "insect"],
          v ∈ [Value.str "mammal", Value.str "mammal", Value.str "mammal",
            Value.str "reptile"] →
          (v, List.count v [Value.str "mammal", Value.str "mammal",
            Value.str "mammal", Value.str "reptile"]) ∈ pairs) ∧
        (∀ v ∈ [Value.str "mammal", Value.str "reptile", Value.str "insect"],
          ¬ v ∈ [Value.str "mammal", Value.str "mammal", Value.str "mammal",
            Value.str "reptile"] →
          (v, 0) ∈ pairs) ∧
        ∃ zfill, pairs = valueCounts [Value.str "mammal", Value.str "mammal",
            Value.str "mammal", Value.str "reptile"] ++ zfill ∧
          ∀ p ∈ zfill,
            p.1 ∈ [Value.str "mammal", Value.str "reptile",
              Value.str "insect"] ∧
            ¬ p.1 ∈ [Value.str "mammal", Value.str "mammal",
              Value.str "mammal", Value.str "reptile"] ∧ p.2 = 0) :=
  ⟨rfl, rfl,
    simpleAggregator_relational_count dfAnimalsTyped dfTypes "type" "type"
      [Value.str "mammal", Value.str "mammal", Value.str "mammal",
        Value.str "reptile"]
      [Value.str "mammal", Value.str "reptile", Value.str "insect"]
      rfl rfl⟩

/-! ## C2: `Hour.generate_feature` with `column` omitted -/

theorem find?_map_fst_preserving {β : Type} (l : List (String × β))
    (f : (String × β) → (String × β)) (hf : ∀ p, (f p).1 = p.1)
    (c : String) :
    (l.map f).find? (fun p => p.1 = c)
      = (l.find? (fun p => p.1 = c)).map f := by
  induction l with
  | nil => rfl
  | cons a l ih =>
    rw [List.map_cons]
    by_cases ha : a.1 = c
    · rw [List.find?_cons_of_pos _ (by simp [hf, ha]),
        List.find?_cons_of_pos _ (by simp [ha])]
      rfl
    · rw [List.find?_cons_of_neg _ (by simp [hf, ha]),
        List.find?_cons_of_neg _ (by simp [ha])]
      exact ih

theorem colDType_map_ts (ts : List Timestamp) (h : ¬ ts = []) :
    colDType (ts.map Value.ts) = .dtDatetime := by
  rw [colDType, if_pos]
  constructor
  · simpa using h
  · rw [List.all_eq_true]
    intro x hx
    obtain ⟨t, _, rfl⟩ := List.mem_map.mp hx
    rfl

theorem colDType_datetime_all_ts {s : List Value}
    (h : colDType s = .dtDatetime) : s.all Value.isTs = true := by
  rw [colDType] at h
  by_cases h1 : ¬ s = [] ∧ s.all Value.isTs = true
  · exact h1.2
  · rw [if_neg h1] at h
    by_cases h2 : ¬ s = [] ∧ s.all Value.isNum = true
    · rw [if_pos h2] at h
      exact absurd h (by simp)
    · rw [if_neg h2] at h
      exact absurd h (by simp)

/-- C2 counterexample input: a table whose single column is numeric, so no
column is or can be coerced to a timestamp type. -/
def dfNumOnly : DataFrame := ⟨[("a", [Value.num 1])]⟩

/-- C2 counterexample: with `column` omitted and no column resolvable to a
timestamp type, `Hour.generate_feature` does not fail with a
`ValueError`-class error — it returns the table unchanged. -/
theorem hour_no_column_no_error :
    Hour.generate_feature (fun _ => none) dfNumOnly none
      = Except.ok dfNumOnly := rfl

/-- C2 amended: with `column` omitted, `Hour.generate_feature` converts every
timestamp-like column (after best-effort coercion of object-typed columns,
ignoring coercion failures) to hour-of-day; but when no column is or can be
coerced to a timestamp type it returns the table unchanged — the
column-omitted branch has no error path at all, hence no `ValueError`. -/
theorem hour_no_column (parse : String → Option Timestamp) (df : DataFrame) :
    ∃ out, Hour.generate_feature parse df none = Except.ok out ∧
      out.colNames = df.colNames ∧
      (∀ c s, df.col? c = some s → colDType s = .dtDatetime →
        out.col? c = some (s.map hourCell)) ∧
      (∀ c s ts, df.col? c = some s → colDType s = .dtObject →
        s.mapM (cellToTs parse) = some ts →
        out.col? c = some ((ts.map Value.ts).map hourCell)) ∧
      (∀ c s, df.col? c = some s → ¬ colDType s = .dtDatetime →
        (colDType s = .dtObject → s.mapM (cellToTs parse) = none) →
        out.col? c = some s) ∧
      ((∀ p ∈ df.cols, ¬ colDType p.2 = .dtDatetime ∧
          (colDType p.2 = .dtObject → p.2.mapM (cellToTs parse) = none)) →
        out = df) := by
  set f1 : (String × List Value) → (String × List Value) := fun p =>
    if colDType p.2 = .dtObject then (p.1, toDatetimeIgnore parse p.2) else p
    with hf1
  set f2 : (String × List Value) → (String × List Value) := fun p =>
    if colDType p.2 = .dtDatetime then (p.1, p.2.map hourCell) else p
    with hf2
  have hf1fst : ∀ p, (f1 p).1 = p.1 := by
    intro p
    simp only [hf1]
    split <;> rfl
  have hf2fst : ∀ p, (f2 p).1 = p.1 := by
    intro p
    simp only [hf2]
    split <;> rfl
  have hout : Hour.generate_feature parse df none
      = Except.ok ⟨(df.cols.map f1).map f2⟩ := rfl
  have hcol : ∀ c, (DataFrame.mk ((df.cols.map f1).map f2)).col? c
      = (df.cols.find? (fun p => p.1 = c)).map (fun p => (f2 (f1 p)).2) := by
    intro c
    show (((df.cols.map f1).map f2).find? (fun p => p.1 = c)).map Prod.snd = _
    rw [find?_map_fst_preserving _ f2 hf2fst,
      find?_map_fst_preserving _ f1 hf1fst]
    cases df.cols.find? (fun p => p.1 = c) <;> rfl
  refine ⟨⟨(df.cols.map f1).map f2⟩, hout, ?_, ?_, ?_, ?_, ?_⟩
  · show ((df.cols.map f1).map f2).map Prod.fst = df.cols.map Prod.fst
    rw [List.map_map, List.map_map]
    apply List.map_congr_left
    intro p _
    show (f2 (f1 p)).1 = p.1
    rw [hf2fst, hf1fst]
  · intro c s hs hdt
    rw [hcol c]
    rw [DataFrame.col?] at hs
    obtain ⟨p0, hp0, hp0s⟩ := Option.map_eq_some'.mp hs
    rw [hp0]
    have hno : ¬ colDType p0.2 = DType.dtObject := by
      rw [hp0s, hdt]
      simp
    have h1 : f1 p0 = p0 := by
      simp only [hf1]
      rw [if_neg hno]
    have h2 : f2 p0 = (p0.1, p0.2.map hourCell) := by
      simp only [hf2]
      rw [if_pos (hp0s ▸ hdt)]
    rw [Option.map_some', h1, h2, hp0s]
  · intro c s ts hs hobj hts
    rw [hcol c]
    rw [DataFrame.col?] at hs
    obtain ⟨p0, hp0, hp0s⟩ := Option.map_eq_some'.mp hs
    rw [hp0, Option.map_some']
    have h1 : f1 p0 = (p0.1, ts.map Value.ts) := by
      simp only [hf1]
      rw [if_pos (hp0s ▸ hobj)]
      rw [hp0s, toDatetimeIgnore, hts]
    rw [h1]
    cases ts with
    | nil =>
      simp only [List.map_nil]
      simp [hf2, colDType]
    | cons t ts' =>
      have h2 : f2 (p0.1, ((t :: ts').map Value.ts))
          = (p0.1, ((t :: ts').map Value.ts).map hourCell) := by
        simp only [hf2]
        rw [if_pos (colDType_map_ts (t :: ts') (by simp))]
      rw [h2]
  · intro c s hs hnd hno
    rw [hcol c]
    rw [DataFrame.col?] at hs
    obtain ⟨p0, hp0, hp0s⟩ := Option.map_eq_some'.mp hs
    rw [hp0, Option.map_some']
    have h1 : f1 p0 = p0 := by
      simp only [hf1]
      by_cases ho : colDType p0.2 = DType.dtObject
      · rw [if_pos ho]
        rw [hp0s] at ho
        rw [hp0s, toDatetimeIgnore, hno ho, ← hp0s]
      · rw [if_neg ho]
    have h2 : f2 p0 = p0 := by
      simp only [hf2]
      rw [if_neg (hp0s ▸ hnd)]
    rw [h1, h2, hp0s]
  · intro hall
    show DataFrame.mk ((df.cols.map f1).map f2) = df
    rw [List.map_map]
    have hmapid : df.cols.map (f2 ∘ f1) = df.cols.map id := by
      apply List.map_congr_left
      intro p hp
      obtain ⟨hpd, hpo⟩ := hall p hp
      have h1 : f1 p = p := by
        simp only [hf1]
        by_cases ho : colDType p.2 = DType.dtObject
        · rw [if_pos ho, toDatetimeIgnore, hpo ho]
        · rw [if_neg ho]
      show f2 (f1 p) = p
      rw [h1]
      simp only [hf2]
      rw [if_neg hpd]
    rw [hmapid, List.map_id]

/-! ## C8: `DateTimeInfo.generate_feature` -/

theorem append_suffix_ne (c : String) {s1 s2 : String} (h : ¬ s1 = s2) :
    ¬ (c ++ s1 = c ++ s2) := by
  intro he
  apply h
  apply String.ext
  have hd := congrArg String.data he
  simp only [String.data_append] at hd
  exact List.append_cancel_left hd

theorem append_suffix_ne_self (c : String) (s1 : String) (h : ¬ s1 = "") :
    ¬ (c ++ s1 = c) := by
  intro he
  apply append_suffix_ne c h
  rw [he]
  exact (String.append_empty c).symm

/-- Assigning a fresh column label appends the column at the end. -/
theorem setCol_fresh (df : DataFrame) (c : String) (vals : List Value)
    (hc : ¬ c ∈ df.colNames) :
    df.setCol c vals = ⟨df.cols ++ [(c, vals)]⟩ := by
  rw [DataFrame.setCol, dictSet, if_neg]
  intro hany
  rw [List.any_eq_true] at hany
  obtain ⟨p, hp, hpk⟩ := hany
  simp only [decide_eq_true_eq] at hpk
  exact hc (hpk ▸ List.mem_map_of_mem Prod.fst hp)

/-- Assigning an existing column label replaces it in place, keeping the
label sequence. -/
theorem setCol_existing_colNames (df : DataFrame) (c : String)
    (vals : List Value) (hc : c ∈ df.colNames) :
    (df.setCol c vals).colNames = df.colNames := by
  rw [DataFrame.setCol, dictSet, if_pos]
  · show (df.cols.map fun p =>
        if p.1 = c then (c, vals) else p).map Prod.fst = df.cols.map Prod.fst
    rw [List.map_map]
    apply List.map_congr_left
    intro p _
    show (if p.1 = c then (c, vals) else p).1 = p.1
    by_cases hp : p.1 = c
    · rw [if_pos hp, hp]
    · rw [if_neg hp]
  · rw [List.any_eq_true]
    obtain ⟨p, hp, hpc⟩ := List.mem_map.mp hc
    exact ⟨p, hp, by simpa using hpc⟩

theorem col?_setCol_self (df : DataFrame) (c : String) (vals : List Value) :
    (df.setCol c vals).col? c = some vals :=
  dictFind?_dictSet_self df.cols c vals

theorem col?_setCol_other (df : DataFrame) (c : String) (vals : List Value)
    (c' : String) (hne : ¬ c' = c) :
    (df.setCol c vals).col? c' = df.col? c' := by
  rw [DataFrame.setCol, dictSet]
  by_cases h : df.cols.any (fun p => p.1 = c)
  · rw [if_pos h]
    show ((df.cols.map fun p => if p.1 = c then (c, vals) else p).find?
      (fun p => p.1 = c')).map Prod.snd = _
    rw [find?_map_fst_preserving _ _ (fun p => by
      by_cases hp : p.1 = c
      · show (if p.1 = c then (c, vals) else p).1 = p.1
        rw [if_pos hp, hp]
      · show (if p.1 = c then (c, vals) else p).1 = p.1
        rw [if_neg hp])]
    rw [DataFrame.col?, Option.map_map]
    cases hf : df.cols.find? (fun p => p.1 = c') with
    | none => rfl
    | some p =>
      have hp' : p.1 = c' := by simpa using List.find?_some hf
      have hpc : ¬ p.1 = c := by
        rw [hp']
        exact hne
      simp only [Option.map_some', Function.comp]
      rw [if_neg hpc]
  · rw [if_neg h]
    show (((df.cols ++ [(c, vals)]).find? (fun p => p.1 = c'))).map Prod.snd
      = _
    rw [List.find?_append]
    have hnone : ([(c, vals)].find? (fun p => p.1 = c')) = none := by
      rw [List.find?_eq_none]
      intro x hx
      simp only [List.mem_singleton] at hx
      subst hx
      simpa using fun he => hne he.symm
    rw [hnone, Option.or_none]
    rfl

theorem col?_eq_some_iff_find? (df : DataFrame) (c : String)
    {s : List Value} :
    df.col? c = some s ↔
      ∃ p, df.cols.find? (fun q => q.1 = c) = some p ∧ p.2 = s := by
  rw [DataFrame.col?]
  exact Option.map_eq_some'

theorem mem_colNames_of_col? {df : DataFrame} {c : String} {s : List Value}
    (h : df.col? c = some s) : c ∈ df.colNames := by
  obtain ⟨p, hp, _⟩ := (col?_eq_some_iff_find? df c).mp h
  have hpc : p.1 = c := by simpa using List.find?_some hp
  exact hpc ▸ List.mem_map_of_mem Prod.fst (List.mem_of_find?_eq_some hp)

theorem mapM_cellToTs_all_ts (parse : String → Option Timestamp)
    {s : List Value} {ts : List Timestamp}
    (hts : s.mapM (cellToTs parse) = some ts)
    (hall : s.all Value.isTs = true) : s = ts.map Value.ts := by
  induction s generalizing ts with
  | nil =>
    simp only [List.mapM_nil, pure, Option.some.injEq] at hts
    rw [← hts]
    rfl
  | cons v s ih =>
    rw [List.all_cons, Bool.and_eq_true] at hall
    obtain ⟨hv, hs⟩ := hall
    obtain ⟨t, rfl⟩ : ∃ t, v = Value.ts t := by
      cases v with
      | ts t => exact ⟨t, rfl⟩
      | str s0 => exact absurd hv (by simp [Value.isTs])
      | num q => exact absurd hv (by simp [Value.isTs])
      | time t0 => exact absurd hv (by simp [Value.isTs])
    rw [List.mapM_cons] at hts
    simp only [cellToTs, Option.bind_eq_bind, Option.some_bind] at hts
    cases h2 : s.mapM (cellToTs parse) with
    | none =>
      rw [h2] at hts
      simp at hts
    | some ys =>
      rw [h2] at hts
      simp only [Option.some_bind, pure, Option.some.injEq] at hts
      rw [← hts, List.map_cons, ← ih h2 hs]

/-- The effect of `DateTimeInfo.split` on the columns: with distinct labels
and fresh derived names, the five derived columns sit at the end and the
original column is gone, one column per calendar field plus the
time-of-day. -/
theorem split_col_facts (dfx : DataFrame) (c : String) (ts : List Timestamp)
    (hnd : dfx.colNames.Nodup) (hmem : c ∈ dfx.colNames)
    (hfresh : ∀ suf ∈ (["_year", "_month", "_day", "_weekday", "_time"]
      : List String), ¬ (c ++ suf) ∈ dfx.colNames) :
    (DateTimeInfo.split dfx c ts).col? (c ++ "_year")
        = some (ts.map (fun t => Value.num (t.year : ℚ))) ∧
    (DateTimeInfo.split dfx c ts).col? (c ++ "_month")
        = some (ts.map (fun t => Value.num (t.month : ℚ))) ∧
    (DateTimeInfo.split dfx c ts).col? (c ++ "_day")
        = some (ts.map (fun t => Value.num (t.day : ℚ))) ∧
    (DateTimeInfo.split dfx c ts).col? (c ++ "_weekday")
        = some (ts.map (fun t => Value.num (t.weekday : ℚ))) ∧
    (DateTimeInfo.split dfx c ts).col? (c ++ "_time")
        = some (ts.map (fun t => Value.time t.tod)) ∧
    (DateTimeInfo.split dfx c ts).col? c = none ∧
    (DateTimeInfo.split dfx c ts).colNames.length
        = dfx.colNames.length + 4 := by
  have hfy := hfresh ("_year") (by simp)
  have hfm := hfresh ("_month") (by simp)
  have hfd := hfresh ("_day") (by simp)
  have hfw := hfresh ("_weekday") (by simp)
  have hft := hfresh ("_time") (by simp)
  set vy := ts.map (fun t => Value.num (t.year : ℚ)) with hvy
  set vm := ts.map (fun t => Value.num (t.month : ℚ)) with hvm
  set vd := ts.map (fun t => Value.num (t.day : ℚ)) with hvd
  set vw := ts.map (fun t => Value.num (t.weekday : ℚ)) with hvw
  set vt := ts.map (fun t => Value.time t.tod) with hvt
  have hstep : ∀ (l : List (String × List Value)) (nm : String)
      (v : List Value), ¬ nm ∈ l.map Prod.fst →
      DataFrame.setCol ⟨l⟩ nm v = ⟨l ++ [(nm, v)]⟩ := by
    intro l nm v hnm
    exact setCol_fresh ⟨l⟩ nm v hnm
  have hm1 : ¬ (c ++ "_month") ∈ (dfx.cols ++ [(c ++ "_year", vy)]).map
      Prod.fst := by
    rw [List.map_append, List.mem_append]
    rintro (h | h)
    · exact hfm h
    · simp only [List.map_cons, List.map_nil, List.mem_singleton] at h
      exact append_suffix_ne c (by decide) h
  have hd1 : ¬ (c ++ "_day") ∈ ((dfx.cols ++ [(c ++ "_year", vy)])
      ++ [(c ++ "_month", vm)]).map Prod.fst := by
    simp only [List.map_append, List.mem_append, List.map_cons, List.map_nil,
      List.mem_singleton]
    rintro ((h | h) | h)
    · exact hfd h
    · exact append_suffix_ne c (by decide) h
    · exact append_suffix_ne c (by decide) h
  have hw1 : ¬ (c ++ "_weekday") ∈ (((dfx.cols ++ [(c ++ "_year", vy)])
      ++ [(c ++ "_month", vm)]) ++ [(c ++ "_day", vd)]).map Prod.fst := by
    simp only [List.map_append, List.mem_append, List.map_cons, List.map_nil,
      List.mem_singleton]
    rintro (((h | h) | h) | h)
    · exact hfw h
    · exact append_suffix_ne c (by decide) h
    · exact append_suffix_ne c (by decide) h
    · exact append_suffix_ne c (by decide) h
  have ht1 : ¬ (c ++ "_time") ∈ ((((dfx.cols ++ [(c ++ "_year", vy)])
      ++ [(c ++ "_month", vm)]) ++ [(c ++ "_day", vd)])
      ++ [(c ++ "_weekday", vw)]).map Prod.fst := by
    simp only [List.map_append, List.mem_append, List.map_cons, List.map_nil,
      List.mem_singleton]
    rintro ((((h | h) | h) | h) | h)
    · exact hft h
    · exact append_suffix_ne c (by decide) h
    · exact append_suffix_ne c (by decide) h
    · exact append_suffix_ne c (by decide) h
    · exact append_suffix_ne c (by decide) h
  have hsplit : DateTimeInfo.split dfx c ts
      = DataFrame.dropCol ⟨dfx.cols ++ [(c ++ "_year", vy)]
          ++ [(c ++ "_month", vm)] ++ [(c ++ "_day", vd)]
          ++ [(c ++ "_weekday", vw)] ++ [(c ++ "_time", vt)]⟩ c := by
    rw [DateTimeInfo.split]
    rw [setCol_fresh dfx _ _ hfy]
    rw [hstep _ _ _ hm1, hstep _ _ _ hd1, hstep _ _ _ hw1, hstep _ _ _ ht1]
  have hyc := append_suffix_ne_self c "_year" (by decide)
  have hmc := append_suffix_ne_self c "_month" (by decide)
  have hdc := append_suffix_ne_self c "_day" (by decide)
  have hwc := append_suffix_ne_self c "_weekday" (by decide)
  have htc := append_suffix_ne_self c "_time" (by decide)
  have hcols : (DateTimeInfo.split dfx c ts).cols
      = dfx.cols.filter (fun p => ¬ p.1 = c)
        ++ [(c ++ "_year", vy), (c ++ "_month", vm), (c ++ "_day", vd),
            (c ++ "_weekday", vw), (c ++ "_time", vt)] := by
    rw [hsplit, DataFrame.dropCol]
    simp only [List.filter_append]
    rw [List.filter_cons, List.filter_cons, List.filter_cons,
      List.filter_cons, List.filter_cons]
    simp only [hyc, hmc, hdc, hwc, htc, not_false_eq_true, List.filter_nil,
      List.append_assoc, List.singleton_append, List.nil_append]
    simp
  have hleft : ∀ nm : String, ¬ nm ∈ dfx.colNames →
      (dfx.cols.filter (fun p => ¬ p.1 = c)).find?
        (fun p => p.1 = nm) = none := by
    intro nm hnm
    rw [List.find?_eq_none]
    intro x hx
    simp only [decide_eq_true_eq]
    intro hxnm
    exact hnm (hxnm ▸ List.mem_map_of_mem Prod.fst
      (List.mem_of_mem_filter hx))
  have hcolq : ∀ nm : String, (DateTimeInfo.split dfx c ts).col? nm
      = Option.map Prod.snd
          (((dfx.cols.filter (fun p => ¬ p.1 = c)).find?
              (fun p => p.1 = nm)).or
            (([(c ++ "_year", vy), (c ++ "_month", vm), (c ++ "_day", vd),
                (c ++ "_weekday", vw), (c ++ "_time", vt)]
              : List (String × List Value)).find? (fun p => p.1 = nm))) := by
    intro nm
    rw [DataFrame.col?, hcols, List.find?_append]
  refine ⟨?_, ?_, ?_, ?_, ?_, ?_, ?_⟩
  · rw [hcolq _, hleft _ hfy, Option.none_or,
      List.find?_cons_of_pos _ (by simp)]
    rfl
  · rw [hcolq _, hleft _ hfm, Option.none_or,
      List.find?_cons_of_neg _ (by simpa using append_suffix_ne c (by decide)),
      List.find?_cons_of_pos _ (by simp)]
    rfl
  · rw [hcolq _, hleft _ hfd, Option.none_or,
      List.find?_cons_of_neg _ (by simpa using append_suffix_ne c (by decide)),
      List.find?_cons_of_neg _ (by simpa using append_suffix_ne c (by decide)),
      List.find?_cons_of_pos _ (by simp)]
    rfl
  · rw [hcolq _, hleft _ hfw, Option.none_or,
      List.find?_cons_of_neg _ (by simpa using append_suffix_ne c (by decide)),
      List.find?_cons_of_neg _ (by simpa using append_suffix_ne c (by decide)),
      List.find?_cons_of_neg _ (by simpa using append_suffix_ne c (by decide)),
      List.find?_cons_of_pos _ (by simp)]
    rfl
  · rw [hcolq _, hleft _ hft, Option.none_or,
      List.find?_cons_of_neg _ (by simpa using append_suffix_ne c (by decide)),
      List.find?_cons_of_neg _ (by simpa using append_suffix_ne c (by decide)),
      List.find?_cons_of_neg _ (by simpa using append_suffix_ne c (by decide)),
      List.find?_cons_of_neg _ (by simpa using append_suffix_ne c (by decide)),
      List.find?_cons_of_pos _ (by simp)]
    rfl
  · rw [hcolq _]
    have hl : (dfx.cols.filter (fun p => ¬ p.1 = c)).find?
        (fun p => p.1 = c) = none := by
      rw [List.find?_eq_none]
      intro x hx
      have := List.of_mem_filter hx
      simpa using this
    rw [hl, Option.none_or]
    rw [List.find?_cons_of_neg _ (by simpa using hyc),
      List.find?_cons_of_neg _ (by simpa using hmc),
      List.find?_cons_of_neg _ (by simpa using hdc),
      List.find?_cons_of_neg _ (by simpa using hwc),
      List.find?_cons_of_neg _ (by simpa using htc)]
    rfl
  · show ((DateTimeInfo.split dfx c ts).cols.map Prod.fst).length
      = dfx.colNames.length + 4
    rw [hcols, List.map_append, List.length_append]
    have hco : (dfx.cols.filter (fun p => ¬ p.1 = c)).map Prod.fst
        = dfx.colNames.filter (fun s => ¬ s = c) :=
      (@List.filter_map (String × List Value) String
        (fun s => ¬ s = c) Prod.fst dfx.cols).symm
    rw [hco]
    have hcount := count_filter_ne_add_count c dfx.colNames
    have h1 : dfx.colNames.count c = 1 :=
      List.count_eq_one_of_mem hnd hmem
    simp only [List.map_cons, List.map_nil, List.length_cons,
      List.length_nil]
    omega

/-- C8: for every table and timestamp column `c` (timestamp cells directly,
or cells `pd.to_datetime` can convert), `DateTimeInfo.generate_feature`
produces the five new columns `{c}_year`, `{c}_month`, `{c}_day`,
`{c}_weekday` (Monday = 0) and `{c}_time`, each row carrying the projections
of that row's timestamp (so together they reconstruct its date and
time-of-day), removes the original column (the column count grows by exactly
4), and fails with `ValueError` when the column argument is omitted. -/
theorem dateTimeInfo_generate (parse : String → Option Timestamp)
    (df : DataFrame) (c : String) (s : List Value) (ts : List Timestamp)
    (hcol : df.col? c = some s)
    (hts : s.mapM (cellToTs parse) = some ts)
    (hnd : df.colNames.Nodup)
    (hfresh : ∀ suf ∈ (["_year", "_month", "_day", "_weekday", "_time"]
      : List String), ¬ (c ++ suf) ∈ df.colNames) :
    DateTimeInfo.generate_feature parse df none
        = .error (.valueError "timestamp column must be given") ∧
    (s.all Value.isTs = true → s = ts.map Value.ts) ∧
    ∃ out, DateTimeInfo.generate_feature parse df (some c) = .ok out ∧
      out.col? (c ++ "_year")
        = some (ts.map (fun t => Value.num (t.year : ℚ))) ∧
      out.col? (c ++ "_month")
        = some (ts.map (fun t => Value.num (t.month : ℚ))) ∧
      out.col? (c ++ "_day")
        = some (ts.map (fun t => Value.num (t.day : ℚ))) ∧
      out.col? (c ++ "_weekday")
        = some (ts.map (fun t => Value.num (t.weekday : ℚ))) ∧
      out.col? (c ++ "_time")
        = some (ts.map (fun t => Value.time t.tod)) ∧
      out.col? c = none ∧
      out.colNames.length = df.colNames.length + 4 := by
  have hmem := mem_colNames_of_col? hcol
  refine ⟨rfl, fun hall => mapM_cellToTs_all_ts parse hts hall, ?_⟩
  by_cases hall : s.all Value.isTs = true
  · have hgen : DateTimeInfo.generate_feature parse df (some c)
        = .ok (DateTimeInfo.split df c ts) := by
      simp only [DateTimeInfo.generate_feature, hcol, hts]
      rw [if_pos hall]
    obtain ⟨f1, f2, f3, f4, f5, f6, f7⟩ :=
      split_col_facts df c ts hnd hmem hfresh
    exact ⟨DateTimeInfo.split df c ts, hgen, f1, f2, f3, f4, f5, f6, f7⟩
  · have hgen : DateTimeInfo.generate_feature parse df (some c)
        = .ok (DateTimeInfo.split (df.setCol c (ts.map Value.ts)) c ts) := by
      simp only [DateTimeInfo.generate_feature, hcol, hts]
      rw [if_neg hall]
    have hnames : (df.setCol c (ts.map Value.ts)).colNames = df.colNames :=
      setCol_existing_colNames df c (ts.map Value.ts) hmem
    obtain ⟨f1, f2, f3, f4, f5, f6, f7⟩ :=
      split_col_facts (df.setCol c (ts.map Value.ts)) c ts
        (by rw [hnames]; exact hnd) (by rw [hnames]; exact hmem)
        (by intro suf hsuf; rw [hnames]; exact hfresh suf hsuf)
    refine ⟨DateTimeInfo.split (df.setCol c (ts.map Value.ts)) c ts, hgen,
      f1, f2, f3, f4, f5, f6, ?_⟩
    rw [f7, hnames]

/-- The `timestamps` fixture's stamps: 2018-01-01 (a Monday, weekday 0),
hourly. -/
def tsHour (h : Nat) : Timestamp := ⟨2018, 1, 1, 0, ⟨h, 0, 0⟩⟩

/-- The cells of the `timestamps` fixture's timestamp column. -/
def tsCellsEx : List Value :=
  [Value.ts (tsHour 0), Value.ts (tsHour 1), Value.ts (tsHour 2),
   Value.ts (tsHour 3), Value.ts (tsHour 4)]

/-- The same stamps as timestamps. -/
def tsListEx : List Timestamp :=
  [tsHour 0, tsHour 1, tsHour 2, tsHour 3, tsHour 4]

/-- The `timestamps` fixture. -/
def dfTimestamps : DataFrame :=
  ⟨[("timestamp", tsCellsEx),
    ("numbers", [Value.num 0, Value.num 1, Value.num 2, Value.num 3,
      Value.num 4])]⟩

/-- C8 witness: the repository's `timestamps` fixture satisfies the
hypotheses, so `DateTimeInfo` splits its `timestamp` column as claimed. -/
theorem dateTimeInfo_generate_witness :
    dfTimestamps.col? "timestamp" = some tsCellsEx ∧
    tsCellsEx.mapM (cellToTs (fun _ => none)) = some tsListEx ∧
    dfTimestamps.colNames.Nodup ∧
    (∀ suf ∈ (["_year", "_month", "_day", "_weekday", "_time"]
      : List String), ¬ ("timestamp" ++ suf) ∈ dfTimestamps.colNames) ∧
    (DateTimeInfo.generate_feature (fun _ => none) dfTimestamps none
        = .error (.valueError "timestamp column must be given") ∧
      (tsCellsEx.all Value.isTs = true → tsCellsEx = tsListEx.map Value.ts) ∧
      ∃ out, DateTimeInfo.generate_feature (fun _ => none) dfTimestamps
          (some "timestamp") = .ok out ∧
        out.col? ("timestamp" ++ "_year")
          = some (tsListEx.map (fun t => Value.num (t.year : ℚ))) ∧
        out.col? ("timestamp" ++ "_month")
          = some (tsListEx.map (fun t => Value.num (t.month : ℚ))) ∧
        out.col? ("timestamp" ++ "_day")
          = some (tsListEx.map (fun t => Value.num (t.day : ℚ))) ∧
        out.col? ("timestamp" ++ "_weekday")
          = some (tsListEx.map (fun t => Value.num (t.weekday : ℚ))) ∧
        out.col? ("timestamp" ++ "_time")
          = some (tsListEx.map (fun t => Value.time t.tod)) ∧
        out.col? "timestamp" = none ∧
        out.colNames.length = dfTimestamps.colNames.length + 4) :=
  ⟨rfl, rfl, by decide, by decide,
    dateTimeInfo_generate (fun _ => none) dfTimestamps "timestamp" tsCellsEx
      tsListEx rfl rfl (by decide) (by decide)⟩

/-- A timestamp for the C2 witness. -/
def tsJan : Timestamp := ⟨2018, 1, 1, 0, ⟨5, 30, 0⟩⟩

/-- An environment parser for the C2 witness, converting one fixed string. -/
def parseEx : String → Option Timestamp :=
  fun s => if s = "2018-01-01 05:30" then some tsJan else none

/-- A table mixing a timestamp column, a coercible string column and a
numeric column. -/
def dfMixed : DataFrame :=
  ⟨[("t", [Value.ts tsJan]), ("s", [Value.str "2018-01-01 05:30"]),
    ("a", [Value.num 1])]⟩

/-- C2 witness: on a mixed table, the column-omitted `Hour` conversion turns
both the timestamp column and the coercible string column into hours. -/
theorem hour_no_column_witness :
    dfMixed.col? "t" = some [Value.ts tsJan] ∧
    colDType [Value.ts tsJan] = DType.dtDatetime ∧
    dfMixed.col? "s" = some [Value.str "2018-01-01 05:30"] ∧
    colDType [Value.str "2018-01-01 05:30"] = DType.dtObject ∧
    ([Value.str "2018-01-01 05:30"] : List Value).mapM (cellToTs parseEx)
      = some [tsJan] ∧
    ∃ out, Hour.generate_feature parseEx dfMixed none = Except.ok out ∧
      out.col? "t" = some ([Value.ts tsJan].map hourCell) ∧
      out.col? "s" = some (([tsJan].map Value.ts).map hourCell) := by
  obtain ⟨out, h0, _, hdt, hob, _, _⟩ := hour_no_column parseEx dfMixed
  exact ⟨rfl, by decide, rfl, by decide, rfl, out, h0,
    hdt "t" [Value.ts tsJan] rfl (by decide),
    hob "s" [Value.str "2018-01-01 05:30"] [tsJan] rfl (by decide) rfl⟩

/-! ## C4: `Average.aggregate` -/

theorem mapM_eq_some_map {α β : Type} (f : α → Option β) (g : α → β)
    (l : List α) (h : ∀ x ∈ l, f x = some (g x)) :
    l.mapM f = some (l.map g) := by
  induction l with
  | nil => rfl
  | cons a l ih =>
    rw [List.mapM_cons, h a (List.mem_cons_self a l),
      ih (fun x hx => h x (List.mem_cons_of_mem a hx))]
    rfl

theorem mapM_isSome {α β : Type} (f : α → Option β) (l : List α)
    (h : ∀ x ∈ l, ∃ y, f x = some y) : ∃ ys, l.mapM f = some ys := by
  induction l with
  | nil => exact ⟨[], rfl⟩
  | cons a l ih =>
    obtain ⟨y, hy⟩ := h a (List.mem_cons_self a l)
    obtain ⟨ys, hys⟩ := ih (fun x hx => h x (List.mem_cons_of_mem a hx))
    refine ⟨y :: ys, ?_⟩
    rw [List.mapM_cons, hy, hys]
    rfl

theorem seriesMean_isSome (s : List Value)
    (h : ∀ v ∈ s, v.isNum = true) : ∃ m, seriesMean s = some m := by
  rw [seriesMean]
  rw [mapM_eq_some_map Value.asNum (fun v => (v.asNum).getD 0) s ?_]
  · exact ⟨_, rfl⟩
  · intro v hv
    cases v with
    | num q => rfl
    | str s0 => exact absurd (h _ hv) (by simp [Value.isNum])
    | ts t => exact absurd (h _ hv) (by simp [Value.isNum])
    | time t => exact absurd (h _ hv) (by simp [Value.isNum])

theorem find?_col_of_mem_colNames (df : DataFrame) (c : String)
    (hc : c ∈ df.colNames) :
    ∃ p, df.cols.find? (fun q => q.1 = c) = some p ∧ p.1 = c ∧
      p ∈ df.cols := by
  have hex : ∃ x ∈ df.cols, (fun q : String × List Value =>
      decide (q.1 = c)) x = true := by
    obtain ⟨p, hp, he⟩ := List.mem_map.mp hc
    exact ⟨p, hp, by simpa using he⟩
  have hsome := List.find?_isSome.mpr hex
  obtain ⟨p, hp⟩ := Option.isSome_iff_exists.mp hsome
  exact ⟨p, hp, by simpa using List.find?_some hp,
    List.mem_of_find?_eq_some hp⟩

theorem filterKey_col? (df : DataFrame) (k : String) (el : Value)
    (keyCol : List Value) (hk : df.col? k = some keyCol) (c : String) :
    (df.filterKey k el).col? c
      = (df.cols.find? (fun p => p.1 = c)).map
          (fun p => ((keyCol.zip p.2).filter
            (fun q => q.1 = el)).map Prod.snd) := by
  rw [DataFrame.filterKey, hk]
  show ((df.cols.map (fun p => (p.1, ((keyCol.zip p.2).filter
      (fun q => q.1 = el)).map Prod.snd))).find?
        (fun p => p.1 = c)).map Prod.snd = _
  rw [find?_map_fst_preserving df.cols
    (fun p => (p.1, ((keyCol.zip p.2).filter
      (fun q => q.1 = el)).map Prod.snd)) (fun p => rfl) c,
    Option.map_map]
  rfl

theorem groupMean_isSome (df : DataFrame) (k : String) (el : Value)
    (keyCol : List Value) (hk : df.col? k = some keyCol) (c : String)
    (hc : c ∈ df.colNames) (hck : ¬ c = k)
    (hnum : ∀ p ∈ df.cols, ¬ p.1 = k → ∀ v ∈ p.2, v.isNum = true) :
    ∃ m, groupMean df k el c = some m := by
  obtain ⟨p0, hp0, hp0c, hp0mem⟩ := find?_col_of_mem_colNames df c hc
  rw [groupMean, filterKey_col? df k el keyCol hk c, hp0,
    Option.map_some', Option.some_bind]
  apply seriesMean_isSome
  intro v hv
  obtain ⟨q, hq, rfl⟩ := List.mem_map.mp hv
  obtain ⟨q1, q2⟩ := q
  have hq2 : q2 ∈ p0.2 := (List.of_mem_zip (List.mem_of_mem_filter hq)).2
  exact hnum p0 hp0mem (hp0c ▸ hck) q2 hq2

theorem mergeOnKey_skip (L : List (Value × ℚ)) (r : List Value)
    (R : List (List Value)) (v : Value)
    (hr : r.head? = some v) (hv : ∀ p ∈ L, ¬ p.1 = v) :
    mergeOnKey L (r :: R) = mergeOnKey L R := by
  induction L with
  | nil => rfl
  | cons p L ih =>
    rw [mergeOnKey, mergeOnKey, List.flatMap_cons, List.flatMap_cons]
    have hpv : ¬ p.1 = v := hv p (List.mem_cons_self p L)
    have hcond : (r :: R).filter (fun q => q.head? = some p.1)
        = R.filter (fun q => q.head? = some p.1) := by
      rw [List.filter_cons, if_neg]
      rw [hr]
      simp only [Option.some.injEq, decide_eq_true_eq]
      intro he
      exact hpv he.symm
    rw [hcond]
    have ih2 := ih (fun q hq => hv q (List.mem_cons_of_mem p hq))
    rw [mergeOnKey, mergeOnKey] at ih2
    rw [ih2]

theorem filter_rows_map_nil (L : List (Value × ℚ))
    (f : Value × ℚ → List Value)
    (hf : ∀ p, (f p).head? = some p.1) (el : Value)
    (hel : ¬ el ∈ L.map Prod.fst) :
    (L.map f).filter (fun r => r.head? = some el) = [] := by
  rw [List.filter_eq_nil_iff]
  intro r hr
  obtain ⟨p, hp, rfl⟩ := List.mem_map.mp hr
  rw [hf p]
  simp only [Option.some.injEq, decide_eq_true_eq]
  intro he
  exact hel (he ▸ List.mem_map_of_mem Prod.fst hp)

theorem filter_map_head_nil (vs : List Value) (g : Value → List Value)
    (hg : ∀ v, (g v).head? = some v) (el : Value) (hel : ¬ el ∈ vs) :
    (vs.map g).filter (fun r => r.head? = some el) = [] := by
  rw [List.filter_eq_nil_iff]
  intro r hr
  obtain ⟨v, hv, rfl⟩ := List.mem_map.mp hr
  rw [hg v]
  simp only [Option.some.injEq, decide_eq_true_eq]
  intro he
  exact hel (he ▸ hv)

theorem mergeOnKey_of_aligned (L : List (Value × ℚ)) (g : Value → List Value)
    (hnd : (L.map Prod.fst).Nodup) (hg : ∀ v, (g v).head? = some v) :
    mergeOnKey L ((L.map Prod.fst).map g)
      = L.map (fun p => p.1 :: Value.num p.2 :: (g p.1).tail) := by
  induction L with
  | nil => rfl
  | cons p L ih =>
    have hnd' : (p.1 :: L.map Prod.fst).Nodup := by simpa using hnd
    obtain ⟨hp1, hndL⟩ := List.nodup_cons.mp hnd'
    show mergeOnKey (p :: L) (g p.1 :: (L.map Prod.fst).map g) = _
    rw [mergeOnKey, List.flatMap_cons]
    have hhead : (g p.1 :: (L.map Prod.fst).map g).filter
        (fun r => r.head? = some p.1) = [g p.1] := by
      rw [List.filter_cons, if_pos (by rw [hg p.1]; simp)]
      rw [filter_map_head_nil (L.map Prod.fst) g hg p.1 hp1]
    rw [hhead]
    have hskip : mergeOnKey L (g p.1 :: (L.map Prod.fst).map g)
        = mergeOnKey L ((L.map Prod.fst).map g) := by
      apply mergeOnKey_skip L (g p.1) _ p.1 (hg p.1)
      intro q hq hq1
      exact hp1 (hq1 ▸ List.mem_map_of_mem Prod.fst hq)
    rw [mergeOnKey] at hskip
    rw [hskip, ih hndL]
    rfl

theorem filter_rows_key (L : List (Value × ℚ)) (f : Value × ℚ → List Value)
    (hf : ∀ p, (f p).head? = some p.1)
    (hnd : (L.map Prod.fst).Nodup) (el : Value) (cq : ℚ)
    (hmem : (el, cq) ∈ L) :
    (L.map f).filter (fun r => r.head? = some el) = [f (el, cq)] := by
  induction L with
  | nil => simp at hmem
  | cons p L ih =>
    have hnd' : (p.1 :: L.map Prod.fst).Nodup := by simpa using hnd
    obtain ⟨hp1, hndL⟩ := List.nodup_cons.mp hnd'
    rcases List.mem_cons.mp hmem with rfl | hmem'
    · rw [List.map_cons, List.filter_cons, if_pos (by rw [hf]; simp)]
      rw [filter_rows_map_nil L f hf el hp1]
    · have hpel : ¬ p.1 = el := by
        intro he
        exact hp1 (he ▸ List.mem_map_of_mem Prod.fst hmem')
      rw [List.map_cons, List.filter_cons, if_neg]
      · exact ih hndL hmem'
      · rw [hf p]
        simp only [Option.some.injEq, decide_eq_true_eq]
        exact hpel

/-- C4: for every table whose non-key columns are numeric, the `Average`
aggregator built on key `k` aggregates to a table with columns
`(k, count, c₁_avg, c₂_avg, ...)` — one `_avg` column per non-key column —
in which every distinct key value `el` owns exactly one row, carrying the
frequency of `el` in the key column and, per non-key column, the arithmetic
mean of that column restricted to the rows where the key equals `el`
(`groupMean`). -/
theorem average_group_means (df : DataFrame) (k : String)
    (label : Option String) (keyCol : List Value)
    (hlabel : ¬ label = some "data2")
    (hcol : df.col? k = some keyCol)
    (hnum : ∀ p ∈ df.cols, ¬ p.1 = k → ∀ v ∈ p.2, v.isNum = true) :
    ∃ st out merged, Average.init df k label = .ok st ∧
      Average.aggregate st = some out ∧
      out = dfFromRows (k :: "count" ::
        (df.colNames.filter (fun c => ¬ c = k)).map (fun c => c ++ "_avg"))
        merged ∧
      out.colNames = k :: "count" ::
        (df.colNames.filter (fun c => ¬ c = k)).map (fun c => c ++ "_avg") ∧
      ∀ el ∈ uniqueFirst keyCol,
        ∃ ms : List ℚ,
          (df.colNames.filter (fun c => ¬ c = k)).mapM
            (fun c => groupMean df k el c) = some ms ∧
          merged.filter (fun r => r.head? = some el)
            = [el :: Value.num (keyCol.count el : ℚ) :: ms.map Value.num] := by
  set otherCols := df.colNames.filter (fun c => ¬ c = k) with hoc
  set msOf : Value → List ℚ := fun el =>
    (otherCols.mapM (fun c => groupMean df k el c)).getD [] with hmsOf
  set gfun : Value → List Value := fun el =>
    el :: (msOf el).map Value.num with hgfun
  set L : List (Value × ℚ) :=
    (valueCounts keyCol).map (fun p => (p.1, (p.2 : ℚ))) with hL
  have hFsome : ∀ el, otherCols.mapM (fun c => groupMean df k el c)
      = some (msOf el) := by
    intro el
    obtain ⟨ys, hys⟩ := mapM_isSome (fun c => groupMean df k el c) otherCols
      (fun c hc => groupMean_isSome df k el keyCol hcol c
        (List.mem_of_mem_filter hc)
        (by simpa using List.of_mem_filter hc) hnum)
    rw [hys]
    simp only [hmsOf, hys, Option.getD_some]
  have hLfst : L.map Prod.fst = (valueCounts keyCol).map Prod.fst := by
    rw [hL, List.map_map]
    rfl
  have hndL : (L.map Prod.fst).Nodup := by
    rw [hLfst]
    exact nodup_valueCounts_keys keyCol
  have hgh : ∀ v, (gfun v).head? = some v := fun v => rfl
  have hmapM : ((valueCounts keyCol).map Prod.fst).mapM (fun el =>
      (otherCols.mapM (fun c => groupMean df k el c)).bind
        (fun means => some (el :: means.map Value.num)))
      = some (((valueCounts keyCol).map Prod.fst).map gfun) := by
    apply mapM_eq_some_map
    intro el _
    rw [hFsome el]
    rfl
  have hmerge : mergeOnKey L (((valueCounts keyCol).map Prod.fst).map gfun)
      = L.map (fun p => p.1 :: Value.num p.2 :: (gfun p.1).tail) := by
    rw [← hLfst]
    exact mergeOnKey_of_aligned L gfun hndL hgh
  refine ⟨{ _data := [(label, .df df), (some "data2", .pystr "NONE")],
            _label1 := label, _label2 := some "data2",
            _rkey1 := some k, _rkey2 := some "NONE",
            _relationships := [(k, "NONE")] },
          dfFromRows (k :: "count" :: otherCols.map (fun c => c ++ "_avg"))
            (L.map (fun p => p.1 :: Value.num p.2 :: (gfun p.1).tail)),
          L.map (fun p => p.1 :: Value.num p.2 :: (gfun p.1).tail),
          ?_, ?_, rfl, ?_, ?_⟩
  · rw [Average.init, aggregatorInit]
    simp [dictSet, hlabel]
  · rw [Average.aggregate]
    have h1 : getDF
        { _data := [(label, .df df), (some "data2", .pystr "NONE")],
          _label1 := label, _label2 := some "data2",
          _rkey1 := some k, _rkey2 := some "NONE",
          _relationships := [(k, "NONE")] } label = some df := by
      simp [getDF, Aggregator.getItem, dictFind?]
    rw [h1]
    simp only [Option.bind_eq_bind, Option.pure_def, Option.some_bind, hcol]
    rw [hmapM]
    simp only [Option.some_bind]
    rw [hmerge]
  · show (dfFromRows (k :: "count" ::
      otherCols.map (fun c => c ++ "_avg")) _).cols.map Prod.fst = _
    rw [dfFromRows, List.map_map]
    show List.map Prod.snd (List.enum _) = _
    exact List.enum_map_snd _
  · intro el hel
    refine ⟨msOf el, hFsome el, ?_⟩
    have helK : el ∈ keyCol := (mem_uniqueFirst el keyCol).mp hel
    have hvc : (el, keyCol.count el) ∈ valueCounts keyCol :=
      mem_valueCounts_of_mem keyCol el helK
    have hLmem : (el, (keyCol.count el : ℚ)) ∈ L := by
      rw [hL]
      exact List.mem_map_of_mem (fun p => (p.1, (p.2 : ℚ))) hvc
    rw [filter_rows_key L
      (fun p => p.1 :: Value.num p.2 :: (gfun p.1).tail)
      (fun p => rfl) hndL el ((keyCol.count el : ℚ)) hLmem]
    rfl

/-- A small numeric dataset for the C4 witness: two groups of the key
column `species`, one numeric column `x`. -/
def dfSpecies : DataFrame :=
  ⟨[("species", [Value.str "a", Value.str "a", Value.str "b"]),
    ("x", [Value.num 1, Value.num 3, Value.num 5])]⟩

/-- C4 witness: `Average(dfSpecies, "species")` satisfies the hypotheses
and aggregates as claimed. -/
theorem average_group_means_witness :
    (¬ (none : Option String) = some "data2") ∧
    dfSpecies.col? "species"
      = some [Value.str "a", Value.str "a", Value.str "b"] ∧
    (∀ p ∈ dfSpecies.cols, ¬ p.1 = "species" →
      ∀ v ∈ p.2, v.isNum = true) ∧
    (∃ st out merged, Average.init dfSpecies "species" none = .ok st ∧
      Average.aggregate st = some out ∧
      out = dfFromRows ("species" :: "count" ::
        (dfSpecies.colNames.filter (fun c => ¬ c = "species")).map
          (fun c => c ++ "_avg")) merged ∧
      out.colNames = "species" :: "count" ::
        (dfSpecies.colNames.filter (fun c => ¬ c = "species")).map
          (fun c => c ++ "_avg") ∧
      ∀ el ∈ uniqueFirst [Value.str "a", Value.str "a", Value.str "b"],
        ∃ ms : List ℚ,
          (dfSpecies.colNames.filter (fun c => ¬ c = "species")).mapM
            (fun c => groupMean dfSpecies "species" el c) = some ms ∧
          merged.filter (fun r => r.head? = some el)
            = [el :: Value.num
                ((List.count el
                  [Value.str "a", Value.str "a", Value.str "b"] : ℚ))
                :: ms.map Value.num]) :=
  ⟨by decide, rfl, by decide,
    average_group_means dfSpecies "species" none
      [Value.str "a", Value.str "a", Value.str "b"]
      (by decide) rfl (by decide)⟩

end MlTools
